import Mathlib

/-!
# Verification of the Godot Fast WFC wrapper against its specification

Shallow embedding of the repository's GDScript utilities (`FastWFC.gd`),
the GDExtension wrapper (`fast_wfc_wrapper.cpp` / `.hpp`), and — where the
underlying fast-wfc engine is not part of the repository sources — models
of the engine derived from the specification's description of it.
-/

namespace FastWFC

/-! ## §1 Marker blocks and orientation detection (`FastWFC.gd`)

The marker-block convention of `load_xml_rules`: each tile's payload is the
3×3 integer block `[[0,1,2],[3,id,5],[6,7,8]]` with the tile's numeric id at
the center.  `_detect_orientation` recovers the orientation index from the
corner values, and `interpret_tilemap_output` decodes a whole result grid
into `[id, orientation]` pairs. -/

/-- The 3×3 marker block built by `load_xml_rules` (`FastWFC.gd` line 598):
`var content = [[0, 1, 2], [3, tile_id, 5], [6, 7, 8]]`. -/
def markerBlock (id : Int) : List (List Int) :=
  [[0, 1, 2], [3, id, 5], [6, 7, 8]]

/-- Modelled from the spec: 90° clockwise rotation of a row-major grid
(§4.2 orientation convention; the engine-side transform itself lives in the
vendored fast-wfc library, which is not among the repository sources).
Rotating an `h × w` grid clockwise yields a `w × h` grid whose entry at row
`y`, column `x` is the entry at row `h-1-x`, column `y` of the input. -/
def rot90cw (g : List (List Int)) : List (List Int) :=
  (List.range (g.headD []).length).map (fun y =>
    (List.range g.length).map (fun x => (g.getD (g.length - 1 - x) []).getD y 0))

/-- Modelled from the spec: the reflection of the §4.2 convention
(orientation 4), which reverses the x coordinate of each cell — each row is
reversed — matching the corner pattern that `_detect_orientation` labels
"Reflection along x-axis". -/
def reflectX (g : List (List Int)) : List (List Int) :=
  g.map List.reverse

/-- Modelled from the spec: the orientation-`o` transform of the §4.2
convention: 0 = identity, 1 = 90° clockwise, 2 = 180°, 3 = 270° clockwise,
4 = reflection, 5..7 = reflection composed with the rotations.  Indices
outside 0..7 never arise and are mapped to the identity. -/
def orientTransform (o : Nat) (g : List (List Int)) : List (List Int) :=
  match o with
  | 0 => g
  | 1 => rot90cw g
  | 2 => rot90cw (rot90cw g)
  | 3 => rot90cw (rot90cw (rot90cw g))
  | 4 => reflectX g
  | 5 => rot90cw (reflectX g)
  | 6 => rot90cw (rot90cw (reflectX g))
  | 7 => rot90cw (rot90cw (rot90cw (reflectX g)))
  | _ => g

/-- `_detect_orientation` (`FastWFC.gd` lines 423–449): reads the four
corners of a 3×3 block and matches them against the eight corner patterns;
an unrecognized pattern falls through to 0. -/
def detectOrientation (t : List (List Int)) : Int :=
  let tl := (t.getD 0 []).getD 0 0
  let tr := (t.getD 0 []).getD 2 0
  let bl := (t.getD 2 []).getD 0 0
  let br := (t.getD 2 []).getD 2 0
  if tl == 0 && tr == 2 && bl == 6 && br == 8 then 0
  else if tl == 6 && tr == 0 && bl == 8 && br == 2 then 1
  else if tl == 8 && tr == 6 && bl == 2 && br == 0 then 2
  else if tl == 2 && tr == 8 && bl == 0 && br == 6 then 3
  else if tl == 2 && tr == 0 && bl == 8 && br == 6 then 4
  else if tl == 8 && tr == 2 && bl == 6 && br == 0 then 5
  else if tl == 6 && tr == 8 && bl == 0 && br == 2 then 6
  else if tl == 0 && tr == 6 && bl == 2 && br == 8 then 7
  else 0

/-- The eight oriented marker blocks, written out.  `orientMarker_eq` below
shows this agrees with applying `orientTransform` to `markerBlock`. -/
def orientedMarker (o : Nat) (id : Int) : List (List Int) :=
  match o with
  | 0 => [[0, 1, 2], [3, id, 5], [6, 7, 8]]
  | 1 => [[6, 3, 0], [7, id, 1], [8, 5, 2]]
  | 2 => [[8, 7, 6], [5, id, 3], [2, 1, 0]]
  | 3 => [[2, 5, 8], [1, id, 7], [0, 3, 6]]
  | 4 => [[2, 1, 0], [5, id, 3], [8, 7, 6]]
  | 5 => [[8, 5, 2], [7, id, 1], [6, 3, 0]]
  | 6 => [[6, 7, 8], [3, id, 5], [0, 1, 2]]
  | 7 => [[0, 3, 6], [1, id, 7], [2, 5, 8]]
  | _ => [[0, 1, 2], [3, id, 5], [6, 7, 8]]

theorem orientMarker_eq (id : Int) (o : Nat) (ho : o < 8) :
    orientTransform o (markerBlock id) = orientedMarker o id := by
  interval_cases o <;> rfl

theorem detect_orientedMarker (id : Int) (o : Nat) (ho : o < 8) :
    detectOrientation (orientedMarker o id) = (o : Int) := by
  interval_cases o <;> rfl

/-- The index sequence of GDScript `range(0, n, 3)`: `0, 3, 6, …` strictly
below `n`. -/
def stepIdx (n : Nat) : List Nat :=
  (List.range ((n + 2) / 3)).map (fun i => 3 * i)

/-- The 3×3 chunk extraction of `interpret_tilemap_output` (`FastWFC.gd`
lines 396–402): for `dy` in 0..2 build a row chunk whose entries are
`result[y+dy][x+dx]` for the `dx` in 0..2 that are in bounds. -/
def chunkAt (result : List (List Int)) (y x : Nat) : List (List Int) :=
  (List.range 3).map (fun dy =>
    (List.range 3).filterMap (fun dx =>
      if y + dy < result.length ∧ x + dx < (result.getD (y + dy) []).length then
        some ((result.getD (y + dy) []).getD (x + dx) 0)
      else none))

/-- `interpret_tilemap_output` (`FastWFC.gd` lines 387–411): walk the result
grid in steps of 3 in both axes, and for each 3×3 chunk record the pair of
its center value (the source id) and its detected orientation. -/
def interpretTilemapOutput (result : List (List Int)) : List (List (Int × Int)) :=
  (stepIdx result.length).map (fun y =>
    (stepIdx (result.getD 0 []).length).map (fun x =>
      let t := chunkAt result y x
      ((t.getD 1 []).getD 1 0, detectOrientation t)))

/-- Stack a row of 3×3 blocks side by side into 3 grid rows. -/
def assembleBlockRow (bs : List (List (List Int))) : List (List Int) :=
  (List.range 3).map (fun dy => (bs.map (fun b => b.getD dy [])).flatten)

/-- The 3×3 block carried by one output cell `(id, o)`. -/
def cellBlock (c : Int × Nat) : List (List Int) :=
  orientTransform c.2 (markerBlock c.1)

/-- A full output grid of oriented marker blocks: each cell `(id, o)` of `g`
contributes the 3×3 block `orientTransform o (markerBlock id)`. -/
def markerGrid (g : List (List (Int × Nat))) : List (List Int) :=
  (g.map (fun row => assembleBlockRow (row.map cellBlock))).flatten

theorem stepIdx_mul3 (n : Nat) :
    stepIdx (3 * n) = (List.range n).map (fun j => 3 * j) := by
  unfold stepIdx
  have h : (3 * n + 2) / 3 = n := by omega
  rw [h]

theorem flatten_length_of_len3 {α : Type} :
    ∀ L : List (List α), (∀ l ∈ L, l.length = 3) → L.flatten.length = 3 * L.length := by
  intro L
  induction L with
  | nil => intro _; rfl
  | cons a t ih =>
    intro h
    have ha : a.length = 3 := h a (by simp)
    have ht := ih (fun l hl => h l (by simp [hl]))
    simp only [List.flatten_cons, List.length_append, List.length_cons, ha, ht]
    ring

theorem flatten_getD_of_len3 {α : Type} (d : α) :
    ∀ L : List (List α), (∀ l ∈ L, l.length = 3) →
      ∀ j dx : Nat, j < L.length → dx < 3 →
      L.flatten.getD (3 * j + dx) d = (L.getD j []).getD dx d := by
  intro L
  induction L with
  | nil => intro _ j dx hj _; exact absurd hj (Nat.not_lt_zero j)
  | cons a t ih =>
    intro h j dx hj hdx
    have ha : a.length = 3 := h a (by simp)
    match j with
    | 0 =>
      rw [List.flatten_cons]
      have hlt : 3 * 0 + dx < a.length := by omega
      rw [List.getD_append _ _ _ _ hlt]
      simp
    | j + 1 =>
      rw [List.flatten_cons]
      have hge : a.length ≤ 3 * (j + 1) + dx := by omega
      rw [List.getD_append_right _ _ _ _ hge]
      have harith : 3 * (j + 1) + dx - a.length = 3 * j + dx := by omega
      rw [harith, ih (fun l hl => h l (by simp [hl])) j dx (by simpa using hj) hdx]
      simp

theorem range3_map_getD {α : Type} (f : Nat → α) (d : α) (dy : Nat) (h : dy < 3) :
    ((List.range 3).map f).getD dy d = f dy := by
  interval_cases dy <;> rfl

theorem getD_list_eta3 {α : Type} (l : List α) (d : α) (h : l.length = 3) :
    [l.getD 0 d, l.getD 1 d, l.getD 2 d] = l := by
  rcases l with _ | ⟨a, _ | ⟨b, _ | ⟨c, _ | ⟨e, t⟩⟩⟩⟩ <;> simp_all

theorem filterMap_range3 {α : Type} (f : Nat → Option α) (a0 a1 a2 : α)
    (h0 : f 0 = some a0) (h1 : f 1 = some a1) (h2 : f 2 = some a2) :
    (List.range 3).filterMap f = [a0, a1, a2] := by
  have h : List.range 3 = [0, 1, 2] := rfl
  rw [h]
  simp [List.filterMap_cons, h0, h1, h2]

theorem map_range_getD {α β : Type} (d : α) (gf : α → β) :
    ∀ (l : List α) (f : Nat → β), (∀ i, i < l.length → f i = gf (l.getD i d)) →
      (List.range l.length).map f = l.map gf := by
  intro l
  induction l with
  | nil => intro f _; rfl
  | cons a t ih =>
    intro f h
    have hlen : (a :: t).length = t.length + 1 := rfl
    rw [hlen, List.range_succ_eq_map, List.map_cons, List.map_map, List.map_cons]
    have h0 : f 0 = gf a := by simpa using h 0 (by simp)
    rw [h0]
    have hrest := ih (fun i => f (i + 1)) (fun i hi => by
      have := h (i + 1) (by simpa using Nat.succ_lt_succ hi)
      simpa using this)
    have hcomp : f ∘ Nat.succ = fun i => f (i + 1) := rfl
    rw [hcomp, hrest]

theorem orientedMarker_length (o : Nat) (id : Int) : (orientedMarker o id).length = 3 := by
  unfold orientedMarker
  split <;> rfl

theorem orientedMarker_row_length (o : Nat) (id : Int) (dy : Nat) (h : dy < 3) :
    ((orientedMarker o id).getD dy []).length = 3 := by
  unfold orientedMarker
  split <;> interval_cases dy <;> rfl

theorem orientedMarker_center (o : Nat) (id : Int) :
    ((orientedMarker o id).getD 1 []).getD 1 0 = id := by
  unfold orientedMarker
  split <;> rfl

theorem getD_map_of_lt {α β : Type} (f : α → β) (l : List α) (i : Nat)
    (hi : i < l.length) (d : α) (d2 : β) :
    (l.map f).getD i d2 = f (l.getD i d) := by
  rw [List.getD_eq_getElem _ _ (by simpa using hi), List.getD_eq_getElem _ _ hi]
  simp

theorem markerGrid_blockrows_len3 (g : List (List (Int × Nat))) :
    ∀ l ∈ g.map (fun row => assembleBlockRow (row.map cellBlock)), l.length = 3 := by
  intro l hl
  rcases List.mem_map.mp hl with ⟨row, _, rfl⟩
  simp [assembleBlockRow]

theorem markerGrid_length (g : List (List (Int × Nat))) :
    (markerGrid g).length = 3 * g.length := by
  unfold markerGrid
  rw [flatten_length_of_len3 _ (markerGrid_blockrows_len3 g)]
  simp

theorem markerGrid_row (g : List (List (Int × Nat))) (i dy : Nat)
    (hi : i < g.length) (hdy : dy < 3) :
    (markerGrid g).getD (3 * i + dy) [] =
      (((g.getD i []).map cellBlock).map (fun b => b.getD dy [])).flatten := by
  unfold markerGrid
  rw [flatten_getD_of_len3 [] _ (markerGrid_blockrows_len3 g) i dy (by simpa using hi) hdy]
  rw [getD_map_of_lt _ _ i hi []]
  unfold assembleBlockRow
  rw [range3_map_getD _ _ dy hdy]

theorem getD_mem_of_lt {α : Type} (l : List α) (i : Nat) (hi : i < l.length) (d : α) :
    l.getD i d ∈ l := by
  rw [List.getD_eq_getElem _ _ hi]
  exact List.getElem_mem _

theorem markerGrid_row_length (g : List (List (Int × Nat))) (n : Nat)
    (hw : ∀ row ∈ g, row.length = n) (hor : ∀ row ∈ g, ∀ c ∈ row, c.2 < 8)
    (i dy : Nat) (hi : i < g.length) (hdy : dy < 3) :
    ((markerGrid g).getD (3 * i + dy) []).length = 3 * n := by
  rw [markerGrid_row g i dy hi hdy]
  have hrowmem : g.getD i [] ∈ g := getD_mem_of_lt g i hi []
  rw [flatten_length_of_len3]
  · rw [List.length_map, List.length_map, hw _ hrowmem]
  · intro l hl
    rcases List.mem_map.mp hl with ⟨b, hb, rfl⟩
    rcases List.mem_map.mp hb with ⟨c, hc, rfl⟩
    have hc8 : c.2 < 8 := hor _ hrowmem _ hc
    rw [cellBlock, orientMarker_eq c.1 c.2 hc8]
    exact orientedMarker_row_length c.2 c.1 dy hdy

theorem chunk_row_markerGrid (g : List (List (Int × Nat))) (n : Nat)
    (hw : ∀ row ∈ g, row.length = n) (hor : ∀ row ∈ g, ∀ c ∈ row, c.2 < 8)
    (i j dy : Nat) (hi : i < g.length) (hj : j < n) (hdy : dy < 3) :
    (List.range 3).filterMap (fun dx =>
      if 3 * i + dy < (markerGrid g).length ∧
          3 * j + dx < ((markerGrid g).getD (3 * i + dy) []).length then
        some (((markerGrid g).getD (3 * i + dy) []).getD (3 * j + dx) 0)
      else none) =
      (orientedMarker ((g.getD i []).getD j (0, 0)).2
        ((g.getD i []).getD j (0, 0)).1).getD dy [] := by
  have hrowmem : g.getD i [] ∈ g := getD_mem_of_lt g i hi []
  have hrowlen : (g.getD i []).length = n := hw _ hrowmem
  have hcmem : (g.getD i []).getD j (0, 0) ∈ g.getD i [] :=
    getD_mem_of_lt _ j (by omega) _
  have hc8 : ((g.getD i []).getD j (0, 0)).2 < 8 := hor _ hrowmem _ hcmem
  have hblock : cellBlock ((g.getD i []).getD j (0, 0)) =
      orientedMarker ((g.getD i []).getD j (0, 0)).2 ((g.getD i []).getD j (0, 0)).1 :=
    orientMarker_eq _ _ hc8
  have hglen : (markerGrid g).length = 3 * g.length := markerGrid_length g
  have hrlen : ((markerGrid g).getD (3 * i + dy) []).length = 3 * n :=
    markerGrid_row_length g n hw hor i dy hi hdy
  have hcond : ∀ dx : Nat, dx < 3 →
      (3 * i + dy < (markerGrid g).length ∧
        3 * j + dx < ((markerGrid g).getD (3 * i + dy) []).length) := by
    intro dx hdx
    constructor
    · omega
    · omega
  have helt : ∀ dx : Nat, dx < 3 →
      ((markerGrid g).getD (3 * i + dy) []).getD (3 * j + dx) 0 =
        ((orientedMarker ((g.getD i []).getD j (0, 0)).2
          ((g.getD i []).getD j (0, 0)).1).getD dy []).getD dx 0 := by
    intro dx hdx
    rw [markerGrid_row g i dy hi hdy]
    have hlen3 : ∀ l ∈ ((g.getD i []).map cellBlock).map (fun b => b.getD dy []),
        l.length = 3 := by
      intro l hl
      rcases List.mem_map.mp hl with ⟨b, hb, rfl⟩
      rcases List.mem_map.mp hb with ⟨c, hc, rfl⟩
      have hc8x : c.2 < 8 := hor _ hrowmem _ hc
      rw [cellBlock, orientMarker_eq c.1 c.2 hc8x]
      exact orientedMarker_row_length c.2 c.1 dy hdy
    rw [flatten_getD_of_len3 0 _ hlen3 j dx
      (by simp only [List.length_map]; omega) hdx]
    rw [getD_map_of_lt _ _ j (by simp only [List.length_map]; omega) []]
    rw [getD_map_of_lt _ _ j (by omega) (0, 0)]
    rw [hblock]
  refine (filterMap_range3 _
    (((orientedMarker ((g.getD i []).getD j (0, 0)).2
        ((g.getD i []).getD j (0, 0)).1).getD dy []).getD 0 0)
    (((orientedMarker ((g.getD i []).getD j (0, 0)).2
        ((g.getD i []).getD j (0, 0)).1).getD dy []).getD 1 0)
    (((orientedMarker ((g.getD i []).getD j (0, 0)).2
        ((g.getD i []).getD j (0, 0)).1).getD dy []).getD 2 0)
    ?_ ?_ ?_).trans (getD_list_eta3 _ _ (orientedMarker_row_length _ _ dy hdy))
  · rw [if_pos (hcond 0 (by omega))]
    exact congrArg some (helt 0 (by omega))
  · rw [if_pos (hcond 1 (by omega))]
    exact congrArg some (helt 1 (by omega))
  · rw [if_pos (hcond 2 (by omega))]
    exact congrArg some (helt 2 (by omega))

theorem map_range3 {α : Type} (f : Nat → α) : (List.range 3).map f = [f 0, f 1, f 2] :=
  rfl

theorem chunk_markerGrid (g : List (List (Int × Nat))) (n : Nat)
    (hw : ∀ row ∈ g, row.length = n) (hor : ∀ row ∈ g, ∀ c ∈ row, c.2 < 8)
    (i j : Nat) (hi : i < g.length) (hj : j < n) :
    chunkAt (markerGrid g) (3 * i) (3 * j) =
      orientedMarker ((g.getD i []).getD j (0, 0)).2 ((g.getD i []).getD j (0, 0)).1 := by
  unfold chunkAt
  rw [map_range3]
  rw [chunk_row_markerGrid g n hw hor i j 0 hi hj (by omega),
    chunk_row_markerGrid g n hw hor i j 1 hi hj (by omega),
    chunk_row_markerGrid g n hw hor i j 2 hi hj (by omega)]
  exact getD_list_eta3 _ _ (orientedMarker_length _ _)

theorem interpret_def (result : List (List Int)) :
    interpretTilemapOutput result =
      (stepIdx result.length).map (fun y =>
        (stepIdx (result.getD 0 []).length).map (fun x =>
          (((chunkAt result y x).getD 1 []).getD 1 0,
            detectOrientation (chunkAt result y x)))) :=
  rfl

theorem interpret_markerGrid (g : List (List (Int × Nat))) (n : Nat)
    (hw : ∀ row ∈ g, row.length = n)
    (hor : ∀ row ∈ g, ∀ c ∈ row, c.2 < 8) :
    interpretTilemapOutput (markerGrid g) =
      g.map (fun row => row.map (fun c => (c.1, (c.2 : Int)))) := by
  rw [interpret_def, markerGrid_length g]
  rcases Nat.eq_zero_or_pos g.length with hm | hm
  · have hnil : g = [] := List.length_eq_zero.mp hm
    subst hnil
    rfl
  · have hwidth0 : ((markerGrid g).getD 0 []).length = 3 * n := by
      simpa using markerGrid_row_length g n hw hor 0 0 hm (by omega)
    rw [stepIdx_mul3]
    simp only [hwidth0, stepIdx_mul3]
    rw [List.map_map]
    refine map_range_getD [] _ g _ ?_
    intro i hi
    simp only [Function.comp_apply]
    rw [List.map_map]
    have hrow : (g.getD i []).length = n := hw _ (getD_mem_of_lt g i hi [])
    rw [show n = (g.getD i []).length from hrow.symm]
    refine map_range_getD (0, 0) _ (g.getD i []) _ ?_
    intro j hj
    have hjn : j < n := by omega
    simp only [Function.comp_apply]
    rw [chunk_markerGrid g n hw hor i j hi hjn]
    have hc8 : ((g.getD i []).getD j (0, 0)).2 < 8 :=
      hor _ (getD_mem_of_lt g i hi []) _ (getD_mem_of_lt _ j hj _)
    rw [orientedMarker_center, detect_orientedMarker _ _ hc8]

/-- C1: Marker round-trip.  For every tile identifier `id` and every
orientation index `o` in 0..7, applying the orientation-`o` transform of the
§4.2 convention to the 3×3 marker block `[[0,1,2],[3,id,5],[6,7,8]]` built
by `load_xml_rules` and then running `_detect_orientation` on the
transformed block returns exactly `o`; and `interpret_tilemap_output` on a
grid of such blocks returns the `[id, o]` pairs. -/
theorem marker_roundtrip :
    (∀ (id : Int) (o : Nat), o < 8 →
      detectOrientation (orientTransform o (markerBlock id)) = (o : Int)) ∧
    (∀ (g : List (List (Int × Nat))) (n : Nat),
      (∀ row ∈ g, row.length = n) → (∀ row ∈ g, ∀ c ∈ row, c.2 < 8) →
      interpretTilemapOutput (markerGrid g) =
        g.map (fun row => row.map (fun c => (c.1, (c.2 : Int))))) := by
  constructor
  · intro id o ho
    rw [orientMarker_eq id o ho]
    exact detect_orientedMarker id o ho
  · exact interpret_markerGrid

/-- Witness for C1 at concrete inputs: orientation 5 of tile 42 decodes to
5, and a 2×2 grid of oriented marker blocks decodes to its `[id, o]`
pairs. -/
theorem marker_roundtrip_witness :
    detectOrientation (orientTransform 5 (markerBlock 42)) = 5 ∧
    interpretTilemapOutput (markerGrid [[(4, 1), (9, 6)], [(7, 0), (2, 3)]]) =
      [[(4, 1), (9, 6)], [(7, 0), (2, 3)]] := by
  constructor
  · exact marker_roundtrip.1 42 5 (by decide)
  · rw [marker_roundtrip.2 [[(4, 1), (9, 6)], [(7, 0), (2, 3)]] 2 (by decide) (by decide)]
    rfl

/-! ## §2 The GDExtension wrapper (`fast_wfc_wrapper.cpp`) -/

/-- A Godot `Variant` value, as far as the wrapper inspects one: arrays,
colors, and opaque scalar payloads. -/
inductive GVar where
  | nil
  | int (n : Int)
  | str (s : String)
  | color (r g b : Nat)
  | arr (elems : List GVar)

/-- Tile symmetry classes of the fast-wfc tiling engine. -/
inductive Symmetry where
  | X
  | I
  | L
  | T
  | backslash
  | P
  deriving DecidableEq

/-- One record of the `tile_data` dictionary as read by `initialize_tiling`:
the `"symmetry"` string (a missing key reads back as the empty string), the
optional `"weight"` (used only when the key is present, else 1.0), and the
`"content"` variant. -/
structure TileInfo where
  symmetry : String
  weight : Option Rat
  content : GVar

/-- The symmetry parsing of `initialize_tiling` (lines 266–273): default
`X`, overridden by the five recognized tags. -/
def parseSymmetry (s : String) : Symmetry :=
  if s = "I" then .I
  else if s = "L" then .L
  else if s = "T" then .T
  else if s = "backslash" then .backslash
  else if s = "P" then .P
  else .X

/-- The wrapper's well-formedness test for tile content (lines 280–283):
the variant is an array, non-empty, and its first element is an array. -/
def contentWellFormed (v : GVar) : Bool :=
  match v with
  | .arr (first :: _) =>
    match first with
    | .arr _ => true
    | _ => false
  | _ => false

/-- Godot's cast of a variant to `Array`: arrays pass through, anything
else becomes the empty array. -/
def gvarRow (v : GVar) : List GVar :=
  match v with
  | .arr xs => xs
  | _ => []

/-- The content conversion of `initialize_tiling` (lines 284–293): a grid of
`content.size()` rows, each of the width of the first row, reading `row[x]`
(out-of-range reads yield the nil variant). -/
def tileArrayOf (v : GVar) : List (List GVar) :=
  let rows := gvarRow v
  let width := (gvarRow (rows.getD 0 .nil)).length
  rows.map (fun row => (List.range width).map (fun x => (gvarRow row).getD x .nil))

/-- One `Tile` handed to the `TilingWFC` constructor. -/
structure TileRecord where
  content : List (List GVar)
  symmetry : Symmetry
  weight : Rat

/-- The tile record compiled from one well-formed `tile_data` entry
(lines 266–294). -/
def mkTileRecord (info : TileInfo) : TileRecord :=
  { content := tileArrayOf info.content
    symmetry := parseSymmetry info.symmetry
    weight := info.weight.getD 1 }

/-- The tile-conversion loop of `initialize_tiling` (lines 258–297): the
key→id pair is recorded for *every* dictionary key (`tile_id++` runs
unconditionally), while a tile record is pushed only when the content is a
well-formed 2D array. -/
def buildTiles : List (String × TileInfo) → Int → List (String × Int) × List TileRecord
  | [], _ => ([], [])
  | (key, info) :: rest, nextId =>
    let later := buildTiles rest (nextId + 1)
    ((key, nextId) :: later.1,
      if contentWellFormed info.content then mkTileRecord info :: later.2 else later.2)

/-- `find_tile_id` (lines 468–475): the id paired to the first matching key,
or −1 when no pair matches. -/
def findTileId (tileKeys : List (String × Int)) (key : String) : Int :=
  match tileKeys with
  | [] => -1
  | p :: rest => if p.1 = key then p.2 else findTileId rest key

/-- One record of the `adjacency_rules` array (lines 304–307). -/
structure Rule where
  tile1 : String
  orientation1 : Nat
  tile2 : String
  orientation2 : Nat
  deriving DecidableEq

/-- The rule-conversion loop of `initialize_tiling` (lines 300–321): a rule
is kept iff both tile names resolve to ids ≥ 0; a rule that does not
resolve is skipped — the loop contains no diagnostic output. -/
def convertRules (tileKeys : List (String × Int)) : List Rule → List (Nat × Nat × Nat × Nat)
  | [] => []
  | r :: rest =>
    let t1 := findTileId tileKeys r.tile1
    let t2 := findTileId tileKeys r.tile2
    if 0 ≤ t1 ∧ 0 ≤ t2 then
      (t1.toNat, r.orientation1, t2.toNat, r.orientation2) :: convertRules tileKeys rest
    else
      convertRules tileKeys rest

/-- What one rule contributes to the neighbors vector: `some` entry when
both names resolve, `none` otherwise. -/
def keptRule (tileKeys : List (String × Int)) (r : Rule) : Option (Nat × Nat × Nat × Nat) :=
  let t1 := findTileId tileKeys r.tile1
  let t2 := findTileId tileKeys r.tile2
  if 0 ≤ t1 ∧ 0 ≤ t2 then
    some (t1.toNat, r.orientation1, t2.toNat, r.orientation2)
  else
    none

theorem convertRules_eq_filterMap (tileKeys : List (String × Int)) :
    ∀ rules : List Rule, convertRules tileKeys rules = rules.filterMap (keptRule tileKeys) := by
  intro rules
  induction rules with
  | nil => rfl
  | cons r rest ih =>
    unfold convertRules keptRule
    rw [List.filterMap_cons]
    by_cases h : 0 ≤ findTileId tileKeys r.tile1 ∧ 0 ≤ findTileId tileKeys r.tile2
    · simp only [if_pos h]
      rw [ih]
      rfl
    · simp only [if_neg h]
      rw [ih]
      rfl

/-- An `OverlappingWFC` instance: converted input plus the option fields of
`OverlappingWFCOptions` (lines 154–162) and the resolved seed. -/
structure OverlappingInst where
  input : List (List GVar)
  periodicInput : Bool
  periodicOutput : Bool
  outHeight : Int
  outWidth : Int
  symmetryCount : Int
  ground : Bool
  patternSize : Int
  seed : Int

/-- A `TilingWFC` instance: the compiled tiles and neighbors plus dimensions,
the periodic flag and the resolved seed (lines 324–329). -/
structure TilingInst where
  tiles : List TileRecord
  neighbors : List (Nat × Nat × Nat × Nat)
  height : Int
  width : Int
  periodicOutput : Bool
  seed : Int

inductive WfcType where
  | overlapping
  | tiling
  deriving DecidableEq

/-- The `std::variant` of nullable engine-instance pointers. -/
inductive WfcInstanceVar where
  | overlappingPtr (p : Option OverlappingInst)
  | tilingPtr (p : Option TilingInst)

/-- The `std::variant` of optional stored results. -/
inductive LastResultVar where
  | colorRes (r : Option (List (List GVar)))
  | variantRes (r : Option (List (List GVar)))

/-- The mutable fields of `FastWFCWrapper`. -/
structure WrapperState where
  currentType : WfcType
  wfcInstance : WfcInstanceVar
  lastResult : LastResultVar
  tileKeys : List (String × Int)

/-- The constructor `FastWFCWrapper()` (lines 69–72): overlapping type, null
instance pointer, empty stored result. -/
def initialState : WrapperState :=
  { currentType := .overlapping
    wfcInstance := .overlappingPtr none
    lastResult := .colorRes none
    tileKeys := [] }

/-- The seed resolution shared by all initializers (`get_random_seed`,
lines 22–28, and its call sites): `seed == -1` draws a fresh value from the
platform random source — modelled by the oracle argument `randomVal` —
and any other seed is used unchanged. -/
def actualSeedOf (seed randomVal : Int) : Int :=
  if seed = -1 then randomVal else seed

def isGArray (v : GVar) : Bool :=
  match v with
  | .arr _ => true
  | _ => false

/-- `godot_color_array_to_array2d` (lines 407–432): a grid with the height
of the array and the width of its first row. -/
def colorArrayToGrid (colorArray : List GVar) : List (List GVar) :=
  let width := (gvarRow (colorArray.getD 0 .nil)).length
  colorArray.map (fun row => (List.range width).map (fun x => (gvarRow row).getD x .nil))

/-- `initialize_overlapping_from_array` (lines 127–166): `current_type` is
set and the seed resolved before validation; an empty array or a first
element that is not an array returns early — the stored instance pointer
is left untouched.  Otherwise a fresh `OverlappingWFC` replaces it. -/
def initOverlappingFromArray (s : WrapperState) (colorArray : List GVar)
    (outWidth outHeight patternSize : Int) (periodicInput periodicOutput ground : Bool)
    (symmetryCount seed randomVal : Int) : WrapperState :=
  let s1 := { s with currentType := WfcType.overlapping }
  let actualSeed := actualSeedOf seed randomVal
  if colorArray.length = 0 then s1
  else if isGArray (colorArray.getD 0 .nil) = false then s1
  else
    { s1 with wfcInstance := .overlappingPtr (some
      { input := colorArrayToGrid colorArray
        periodicInput := periodicInput
        periodicOutput := periodicOutput
        outHeight := outHeight
        outWidth := outWidth
        symmetryCount := symmetryCount
        ground := ground
        patternSize := patternSize
        seed := actualSeed }) }

/-- `initialize_overlapping_from_path` (lines 168–195): the image decoder is
an external collaborator, modelled by the oracle argument `imageOracle`
(`none` = load failure, which returns early leaving the instance
untouched). -/
def initOverlappingFromPath (s : WrapperState) (imageOracle : Option (List (List GVar)))
    (outWidth outHeight patternSize : Int) (periodicInput periodicOutput ground : Bool)
    (symmetryCount seed randomVal : Int) : WrapperState :=
  let s1 := { s with currentType := WfcType.overlapping }
  let actualSeed := actualSeedOf seed randomVal
  match imageOracle with
  | none => s1
  | some img =>
    { s1 with wfcInstance := .overlappingPtr (some
      { input := img
        periodicInput := periodicInput
        periodicOutput := periodicOutput
        outHeight := outHeight
        outWidth := outWidth
        symmetryCount := symmetryCount
        ground := ground
        patternSize := patternSize
        seed := actualSeed }) }

/-- `initialize_tiling` (lines 247–330): resolves the seed, clears and
rebuilds `tile_keys`, compiles tile records and adjacency rules, and always
constructs a `TilingWFC` instance.  The second component is the trace of
warnings printed by the function — the function body contains no
`printerr` call, so the trace is empty. -/
def initTiling (s : WrapperState) (tileData : List (String × TileInfo))
    (rules : List Rule) (width height : Int) (periodicOutput : Bool)
    (seed randomVal : Int) : WrapperState × List String :=
  let actualSeed := actualSeedOf seed randomVal
  let built := buildTiles tileData 0
  let neighbors := convertRules built.1 rules
  ({ currentType := WfcType.tiling
     wfcInstance := .tilingPtr (some
       { tiles := built.2
         neighbors := neighbors
         height := height
         width := width
         periodicOutput := periodicOutput
         seed := actualSeed })
     lastResult := s.lastResult
     tileKeys := built.1 }, [])

/-- Modelled from the spec: one run of the core WFC engine, which is not
among the repository sources (only the wrapper is).  A run is a
deterministic function of the instance data — §3's "seeded sequence
generator: deterministic pseudo-random stream from an integer seed" and the
instance carries its seed — ending in a collapsed grid or a contradiction
(§4.3); `exc` models a thrown exception crossing into the wrapper. -/
inductive CoreOutcome where
  | ok (grid : List (List GVar))
  | contradiction
  | exc (msg : String)

/-- Modelled from the spec: the two engine entry points `run()` used by
`generate`, as deterministic functions of the instance data. -/
structure CoreModel where
  runOverlapping : OverlappingInst → CoreOutcome
  runTiling : TilingInst → CoreOutcome

/-- The outcome `generate` observes: `none` when the active variant holds a
null pointer. -/
def activeOutcome (core : CoreModel) (s : WrapperState) : Option CoreOutcome :=
  match s.wfcInstance with
  | .overlappingPtr none => none
  | .overlappingPtr (some inst) => some (core.runOverlapping inst)
  | .tilingPtr none => none
  | .tilingPtr (some inst) => some (core.runTiling inst)

/-- `generate` (lines 78–125): dispatch on the variant alternative; a null
pointer, a failed run, or a caught exception each report and return an
empty `Array` leaving the stored result untouched; a successful run stores
the grid and returns its conversion. -/
def generate (core : CoreModel) (s : WrapperState) : List (List GVar) × WrapperState :=
  match s.wfcInstance with
  | .overlappingPtr none => ([], s)
  | .overlappingPtr (some inst) =>
    match core.runOverlapping inst with
    | .ok g => (g, { s with lastResult := .colorRes (some g) })
    | .contradiction => ([], s)
    | .exc _ => ([], s)
  | .tilingPtr none => ([], s)
  | .tilingPtr (some inst) =>
    match core.runTiling inst with
    | .ok g => (g, { s with lastResult := .variantRes (some g) })
    | .contradiction => ([], s)
    | .exc _ => ([], s)

/-- The per-cell conversion of `save_result_to_image` for variant results
(lines 377–396): color variants keep their channels, anything else becomes
the default color `{255, 0, 0}`. -/
def variantToColor (v : GVar) : GVar :=
  match v with
  | .color r g b => .color r g b
  | _ => .color 255 0 0

/-- `save_result_to_image` (lines 358–405): succeeds iff a stored result is
present; the second component is the image written — the stored color
grid, or the stored variant grid converted cell-wise. -/
def saveResultToImage (s : WrapperState) : Bool × Option (List (List GVar)) :=
  match s.lastResult with
  | .colorRes (some g) => (true, some g)
  | .variantRes (some g) => (true, some (g.map (fun row => row.map variantToColor)))
  | .colorRes none => (false, none)
  | .variantRes none => (false, none)

/-! ## §3 Lemmas about the tiling catalog -/

theorem buildTiles_keys_names :
    ∀ (entries : List (String × TileInfo)) (k : Int),
      ((buildTiles entries k).1).map Prod.fst = entries.map Prod.fst := by
  intro entries
  induction entries with
  | nil => intro k; rfl
  | cons e rest ih =>
    intro k
    obtain ⟨key, info⟩ := e
    simp only [buildTiles, List.map_cons]
    rw [ih (k + 1)]

theorem findTileId_eq_neg_of_not_mem :
    ∀ (tileKeys : List (String × Int)) (name : String),
      name ∉ tileKeys.map Prod.fst → findTileId tileKeys name = -1 := by
  intro tk
  induction tk with
  | nil => intro name _; rfl
  | cons p rest ih =>
    intro name h
    unfold findTileId
    have hne : ¬ p.1 = name := by
      intro he
      exact h (by simp [he])
    rw [if_neg hne]
    exact ih name (fun hm => h (by simp [hm]))

theorem keptRule_none_of_unknown (tileKeys : List (String × Int)) (r : Rule)
    (h : findTileId tileKeys r.tile1 = -1 ∨ findTileId tileKeys r.tile2 = -1) :
    keptRule tileKeys r = none := by
  rcases h with h | h <;> simp [keptRule, h]

theorem mkTileRecord_mem_buildTiles :
    ∀ (entries : List (String × TileInfo)) (k : Int) (name : String) (info : TileInfo),
      (name, info) ∈ entries → contentWellFormed info.content = true →
      mkTileRecord info ∈ (buildTiles entries k).2 := by
  intro entries
  induction entries with
  | nil => intro k name info hmem _; cases hmem
  | cons e rest ih =>
    intro k name info hmem hwf
    obtain ⟨key, einfo⟩ := e
    rcases List.mem_cons.mp hmem with he | he
    · have h2 : info = einfo := congrArg Prod.snd he
      subst h2
      show mkTileRecord info ∈
        (if contentWellFormed info.content then
          mkTileRecord info :: (buildTiles rest (k + 1)).2
        else (buildTiles rest (k + 1)).2)
      rw [if_pos hwf]
      exact List.mem_cons_self _ _
    · have hmemr := ih (k + 1) name info he hwf
      show mkTileRecord info ∈
        (if contentWellFormed einfo.content then
          mkTileRecord einfo :: (buildTiles rest (k + 1)).2
        else (buildTiles rest (k + 1)).2)
      by_cases hw : contentWellFormed einfo.content
      · rw [if_pos hw]
        exact List.mem_cons_of_mem _ hmemr
      · rw [if_neg hw]
        exact hmemr

/-! ## §4 Claim theorems about the wrapper -/

/-- C2 failing input: a malformed record (`content` not an array) followed
by a well-formed one. -/
def c2BrokenInfo : TileInfo :=
  { symmetry := "X", weight := none, content := .nil }

def c2GoodInfo : TileInfo :=
  { symmetry := "X", weight := none, content := .arr [.arr [.int 1]] }

def c2TileData : List (String × TileInfo) :=
  [("broken", c2BrokenInfo), ("good", c2GoodInfo)]

/-- C2 evaluated at the failing input: the malformed record "broken" is
skipped by the tiles loop but still consumes `tile_id` 0, so
`find_tile_id "good"` returns 1 while the tiles vector handed to the
`TilingWFC` constructor is the one-element list holding only the record of
"good" — whose index there is 0, not 1.  The claimed index stability under
skipped records fails. -/
theorem tile_index_mismatch :
    findTileId (buildTiles c2TileData 0).1 "good" = 1 ∧
    (buildTiles c2TileData 0).2 = [mkTileRecord c2GoodInfo] ∧
    (buildTiles c2TileData 0).2.length = 1 :=
  ⟨rfl, rfl, rfl⟩

/-- C3 counterexample data: a single known tile and a rule whose first
reference names an unknown tile. -/
def c3TileData : List (String × TileInfo) :=
  [("empty", { symmetry := "X", weight := none, content := .arr [.arr [.int 0]] })]

def c3Rule : Rule :=
  { tile1 := "ghost", orientation1 := 0, tile2 := "empty", orientation2 := 0 }

/-- C3 counterexample: the rule references the unknown tile "ghost"
(`find_tile_id` yields −1), yet the warning trace of `initialize_tiling` is
empty — the loop that drops the rule contains no diagnostic, refuting the
claim's "is dropped with a warning … a warning is reported". -/
theorem unknown_rule_no_warning :
    findTileId (buildTiles c3TileData 0).1 "ghost" = -1 ∧
    ¬ (initTiling initialState c3TileData [c3Rule] 4 4 false 7 0).2 ≠ [] :=
  ⟨rfl, fun hne => hne rfl⟩

/-- C3 (amended): a rule whose `tile1` or `tile2` names a tile absent from
`tile_data` is dropped silently — it contributes no entry to the neighbors
list given to `TilingWFC`, no warning is emitted, and initialization still
completes, its neighbors being exactly the conversions of the rules that do
resolve. -/
theorem unknown_rule_dropped_silently
    (s : WrapperState) (tileData : List (String × TileInfo)) (rules : List Rule)
    (w h : Int) (p : Bool) (seed rnd : Int) (r : Rule) (_hmem : r ∈ rules)
    (habsent : r.tile1 ∉ tileData.map Prod.fst ∨ r.tile2 ∉ tileData.map Prod.fst) :
    keptRule (buildTiles tileData 0).1 r = none ∧
    (initTiling s tileData rules w h p seed rnd).2 = [] ∧
    ∃ inst : TilingInst,
      ((initTiling s tileData rules w h p seed rnd).1).wfcInstance
        = .tilingPtr (some inst) ∧
      inst.neighbors = rules.filterMap (keptRule (buildTiles tileData 0).1) := by
  have hkeys := buildTiles_keys_names tileData 0
  have hnone : keptRule (buildTiles tileData 0).1 r = none := by
    apply keptRule_none_of_unknown
    rcases habsent with ha | ha
    · exact Or.inl (findTileId_eq_neg_of_not_mem _ _ (by rw [hkeys]; exact ha))
    · exact Or.inr (findTileId_eq_neg_of_not_mem _ _ (by rw [hkeys]; exact ha))
  exact ⟨hnone, rfl, ⟨_, rfl, convertRules_eq_filterMap _ rules⟩⟩

/-- Witness for C3's amended theorem at the concrete counterexample data. -/
theorem unknown_rule_dropped_silently_witness :
    keptRule (buildTiles c3TileData 0).1 c3Rule = none ∧
    (initTiling initialState c3TileData [c3Rule] 4 4 false 7 0).2 = [] ∧
    ∃ inst : TilingInst,
      ((initTiling initialState c3TileData [c3Rule] 4 4 false 7 0).1).wfcInstance
        = .tilingPtr (some inst) ∧
      inst.neighbors = [c3Rule].filterMap (keptRule (buildTiles c3TileData 0).1) :=
  unknown_rule_dropped_silently initialState c3TileData [c3Rule] 4 4 false 7 0 c3Rule
    (by simp) (Or.inl (by decide))

theorem actualSeedOf_of_ne (seed r : Int) (h : seed ≠ -1) : actualSeedOf seed r = seed :=
  if_neg h

/-- A deterministic stand-in core (used only in closed witnesses). -/
def detCore : CoreModel :=
  { runOverlapping := fun _ => .ok [[.int 3]], runTiling := fun _ => .ok [[.int 4]] }

/-- C4: with identical initialization inputs and the same explicit seed
(`seed ≠ -1`), two independent runs — modelled with independent random
oracles `r1`, `r2` — produce identical `generate()` outputs, in both the
overlapping and the tiling mode, for every (deterministic) engine. -/
theorem deterministic_with_explicit_seed
    (core : CoreModel) (colorArray : List GVar) (ow oh ps : Int)
    (pin pout gr : Bool) (sy : Int) (tileData : List (String × TileInfo))
    (rules : List Rule) (w h : Int) (p : Bool) (seed r1 r2 : Int)
    (hseed : seed ≠ -1) :
    generate core (initOverlappingFromArray initialState colorArray ow oh ps pin pout gr sy seed r1)
      = generate core (initOverlappingFromArray initialState colorArray ow oh ps pin pout gr sy seed r2) ∧
    generate core ((initTiling initialState tileData rules w h p seed r1).1)
      = generate core ((initTiling initialState tileData rules w h p seed r2).1) := by
  constructor
  · have hst : initOverlappingFromArray initialState colorArray ow oh ps pin pout gr sy seed r1
        = initOverlappingFromArray initialState colorArray ow oh ps pin pout gr sy seed r2 := by
      unfold initOverlappingFromArray
      rw [actualSeedOf_of_ne seed r1 hseed, actualSeedOf_of_ne seed r2 hseed]
    rw [hst]
  · have hst : (initTiling initialState tileData rules w h p seed r1).1
        = (initTiling initialState tileData rules w h p seed r2).1 := by
      unfold initTiling
      rw [actualSeedOf_of_ne seed r1 hseed, actualSeedOf_of_ne seed r2 hseed]
    rw [hst]

/-- Witness for C4 at seed 7 with distinct oracle draws 1 and 2. -/
theorem deterministic_with_explicit_seed_witness :
    generate detCore (initOverlappingFromArray initialState [GVar.arr [GVar.int 1]] 2 2 1 true true false 8 7 1)
      = generate detCore (initOverlappingFromArray initialState [GVar.arr [GVar.int 1]] 2 2 1 true true false 8 7 2) ∧
    generate detCore ((initTiling initialState c3TileData [] 2 2 false 7 1).1)
      = generate detCore ((initTiling initialState c3TileData [] 2 2 false 7 2).1) :=
  deterministic_with_explicit_seed detCore [GVar.arr [GVar.int 1]] 2 2 1 true true false 8
    c3TileData [] 2 2 false 7 1 2 (by decide)

/-- C5: `generate` is a total function of the wrapper state and engine
outcome (a caught exception is just another outcome); on every failure —
null instance, contradiction, or exception — the returned `Array` is
empty, and on success the full solved grid is returned.  No partial grid
exists in any branch. -/
theorem generate_failure_empty (core : CoreModel) (s : WrapperState) :
    (activeOutcome core s = none → (generate core s).1 = []) ∧
    (activeOutcome core s = some .contradiction → (generate core s).1 = []) ∧
    (∀ m, activeOutcome core s = some (.exc m) → (generate core s).1 = []) ∧
    (∀ g, activeOutcome core s = some (.ok g) → (generate core s).1 = g) := by
  obtain ⟨ct, inst, lr, tk⟩ := s
  cases inst with
  | overlappingPtr p =>
    cases p with
    | none => simp [generate, activeOutcome]
    | some i0 =>
      cases hrun : core.runOverlapping i0 with
      | ok g => simp [generate, activeOutcome, hrun]
      | contradiction => simp [generate, activeOutcome, hrun]
      | exc m => simp [generate, activeOutcome, hrun]
  | tilingPtr p =>
    cases p with
    | none => simp [generate, activeOutcome]
    | some i0 =>
      cases hrun : core.runTiling i0 with
      | ok g => simp [generate, activeOutcome, hrun]
      | contradiction => simp [generate, activeOutcome, hrun]
      | exc m => simp [generate, activeOutcome, hrun]

/-- A core whose runs always hit a contradiction (for closed witnesses). -/
def failCore : CoreModel :=
  { runOverlapping := fun _ => .contradiction, runTiling := fun _ => .contradiction }

def someOverInst : OverlappingInst :=
  { input := [[.int 0]], periodicInput := true, periodicOutput := false,
    outHeight := 2, outWidth := 2, symmetryCount := 8, ground := false,
    patternSize := 1, seed := 3 }

def failState : WrapperState :=
  { currentType := .overlapping, wfcInstance := .overlappingPtr (some someOverInst),
    lastResult := .colorRes none, tileKeys := [] }

/-- Witness for C5: a contradicting run yields the empty array. -/
theorem generate_failure_empty_witness :
    (generate failCore failState).1 = [] :=
  (generate_failure_empty failCore failState).2.1 rfl

/-- C6 (amended): a call to `initialize_overlapping_from_array` with an
empty color array or a non-array first row leaves the stored instance
pointer untouched (no `OverlappingWFC` is created), and on a wrapper that
has never created an instance a subsequent `generate()` returns an empty
`Array`. -/
theorem empty_input_rejected (s : WrapperState) (colorArray : List GVar)
    (ow oh ps : Int) (pin pout gr : Bool) (sy seed rnd : Int)
    (hbad : colorArray.length = 0 ∨ isGArray (colorArray.getD 0 .nil) = false) :
    (initOverlappingFromArray s colorArray ow oh ps pin pout gr sy seed rnd).wfcInstance
      = s.wfcInstance ∧
    ∀ core : CoreModel,
      (generate core (initOverlappingFromArray initialState colorArray ow oh ps pin pout gr sy seed rnd)).1
        = [] := by
  have key : ∀ s0 : WrapperState,
      initOverlappingFromArray s0 colorArray ow oh ps pin pout gr sy seed rnd
        = { s0 with currentType := WfcType.overlapping } := by
    intro s0
    unfold initOverlappingFromArray
    by_cases hlen : colorArray.length = 0
    · rw [if_pos hlen]
    · rcases hbad with hb | hb
      · exact absurd hb hlen
      · rw [if_neg hlen, if_pos hb]
  constructor
  · rw [key s]
  · intro core
    rw [key initialState]
    rfl

/-- Witness for C6's amended theorem on a fresh wrapper with an empty
array. -/
theorem empty_input_rejected_witness :
    (initOverlappingFromArray initialState [] 2 2 1 true true false 8 5 0).wfcInstance
      = initialState.wfcInstance ∧
    (generate failCore (initOverlappingFromArray initialState [] 2 2 1 true true false 8 5 0)).1
      = [] :=
  ⟨(empty_input_rejected initialState [] 2 2 1 true true false 8 5 0 (Or.inl rfl)).1,
   (empty_input_rejected initialState [] 2 2 1 true true false 8 5 0 (Or.inl rfl)).2 failCore⟩

def c6Core : CoreModel :=
  { runOverlapping := fun _ => .ok [[.int 7]], runTiling := fun _ => .contradiction }

def c6PrevState : WrapperState :=
  { currentType := .overlapping, wfcInstance := .overlappingPtr (some someOverInst),
    lastResult := .colorRes none, tileKeys := [] }

/-- C6 counterexample: on a wrapper that already holds a live instance, a
rejected `initialize_overlapping_from_array` call (empty array) leaves the
old instance in place, and the subsequent `generate()` returns that
instance's non-empty result — not the empty `Array` the claim asserts for
every such call. -/
theorem empty_input_then_generate_nonempty :
    (generate c6Core (initOverlappingFromArray c6PrevState [] 2 2 1 true true false 8 5 0)).1
      ≠ [] :=
  fun hcontra => List.noConfusion hcontra

/-- C7: seed selection.  For each of the three initializers, when the seed
argument is −1 the created instance carries the value drawn from the random
source (the oracle `rnd`), and any other seed value is stored unchanged. -/
theorem seed_selection :
    (∀ (s : WrapperState) (colorArray : List GVar) (ow oh ps : Int)
        (pin pout gr : Bool) (sy seed rnd : Int),
      colorArray.length ≠ 0 → isGArray (colorArray.getD 0 .nil) = true →
      ∃ inst : OverlappingInst,
        (initOverlappingFromArray s colorArray ow oh ps pin pout gr sy seed rnd).wfcInstance
          = .overlappingPtr (some inst) ∧
        inst.seed = if seed = -1 then rnd else seed) ∧
    (∀ (s : WrapperState) (img : List (List GVar)) (ow oh ps : Int)
        (pin pout gr : Bool) (sy seed rnd : Int),
      ∃ inst : OverlappingInst,
        (initOverlappingFromPath s (some img) ow oh ps pin pout gr sy seed rnd).wfcInstance
          = .overlappingPtr (some inst) ∧
        inst.seed = if seed = -1 then rnd else seed) ∧
    (∀ (s : WrapperState) (tileData : List (String × TileInfo)) (rules : List Rule)
        (w h : Int) (p : Bool) (seed rnd : Int),
      ∃ inst : TilingInst,
        ((initTiling s tileData rules w h p seed rnd).1).wfcInstance
          = .tilingPtr (some inst) ∧
        inst.seed = if seed = -1 then rnd else seed) := by
  refine ⟨?_, ?_, ?_⟩
  · intro s colorArray ow oh ps pin pout gr sy seed rnd hlen hfirst
    have hnotfalse : ¬ isGArray (colorArray.getD 0 .nil) = false := by
      rw [hfirst]
      decide
    unfold initOverlappingFromArray
    rw [if_neg hlen, if_neg hnotfalse]
    exact ⟨_, rfl, rfl⟩
  · intro s img ow oh ps pin pout gr sy seed rnd
    exact ⟨_, rfl, rfl⟩
  · intro s tileData rules w h p seed rnd
    exact ⟨_, rfl, rfl⟩

/-- Witness for C7: explicit seed 5 is stored unchanged; seed −1 stores the
oracle draw 99. -/
theorem seed_selection_witness :
    (∃ inst : OverlappingInst,
      (initOverlappingFromArray initialState [GVar.arr [GVar.int 0]] 2 2 1 true true false 8 5 99).wfcInstance
        = .overlappingPtr (some inst) ∧
      inst.seed = if (5 : Int) = -1 then 99 else 5) ∧
    (∃ inst : TilingInst,
      ((initTiling initialState [] [] 2 2 false (-1) 99).1).wfcInstance
        = .tilingPtr (some inst) ∧
      inst.seed = if (-1 : Int) = -1 then 99 else -1) :=
  ⟨seed_selection.1 initialState [GVar.arr [GVar.int 0]] 2 2 1 true true false 8 5 99
      (by simp) rfl,
   seed_selection.2.2 initialState [] [] 2 2 false (-1) 99⟩

/-- Generation failed: no successful outcome was observed (null instance,
contradiction, or caught exception). -/
def generationFailed (core : CoreModel) (s : WrapperState) : Prop :=
  ∀ g, activeOutcome core s ≠ some (.ok g)

def hasStored : LastResultVar → Bool
  | .colorRes (some _) => true
  | .variantRes (some _) => true
  | .colorRes none => false
  | .variantRes none => false

theorem save_succeeds_of_stored (s : WrapperState) (h : hasStored s.lastResult = true) :
    (saveResultToImage s).1 = true := by
  obtain ⟨ct, inst, lr, tk⟩ := s
  cases lr with
  | colorRes r =>
    cases r with
    | none => simp [hasStored] at h
    | some g => rfl
  | variantRes r =>
    cases r with
    | none => simp [hasStored] at h
    | some g => rfl

/-- C9: whenever `generate` fails, the stored `last_result` is left
unchanged — the returned array is empty, `save_result_to_image` behaves
exactly as before the failed call, and if a result from an earlier
successful generation is stored, saving still succeeds and writes it. -/
theorem failed_generate_keeps_result (core : CoreModel) (s : WrapperState)
    (hfail : generationFailed core s) :
    (generate core s).1 = [] ∧
    ((generate core s).2).lastResult = s.lastResult ∧
    saveResultToImage ((generate core s).2) = saveResultToImage s ∧
    (hasStored s.lastResult = true → (saveResultToImage ((generate core s).2)).1 = true) := by
  have hstate : generate core s = ([], s) := by
    obtain ⟨ct, inst, lr, tk⟩ := s
    cases inst with
    | overlappingPtr p =>
      cases p with
      | none => rfl
      | some i0 =>
        cases hrun : core.runOverlapping i0 with
        | ok g =>
          exact absurd (by simp [activeOutcome, hrun]) (hfail g)
        | contradiction => simp [generate, hrun]
        | exc m => simp [generate, hrun]
    | tilingPtr p =>
      cases p with
      | none => rfl
      | some i0 =>
        cases hrun : core.runTiling i0 with
        | ok g =>
          exact absurd (by simp [activeOutcome, hrun]) (hfail g)
        | contradiction => simp [generate, hrun]
        | exc m => simp [generate, hrun]
  rw [hstate]
  exact ⟨rfl, rfl, rfl, fun h => save_succeeds_of_stored s h⟩

def c9State : WrapperState :=
  { currentType := .overlapping, wfcInstance := .overlappingPtr (some someOverInst),
    lastResult := .colorRes (some [[.int 9]]), tileKeys := [] }

/-- Witness for C9: after a contradicting run on a wrapper holding a stored
result, the result is untouched and saving still succeeds. -/
theorem failed_generate_keeps_result_witness :
    (generate failCore c9State).1 = [] ∧
    ((generate failCore c9State).2).lastResult = c9State.lastResult ∧
    saveResultToImage ((generate failCore c9State).2) = saveResultToImage c9State ∧
    (hasStored c9State.lastResult = true → (saveResultToImage ((generate failCore c9State).2)).1 = true) :=
  failed_generate_keeps_result failCore c9State
    (by simp [generationFailed, activeOutcome, failCore, c9State])

/-- C10: every tile whose `"symmetry"` string is none of `"I"`, `"L"`,
`"T"`, `"backslash"`, `"P"` — including the empty string read back for a
missing tag — is compiled with symmetry class `X`, and its record enters
the tiles vector built by `initialize_tiling`. -/
theorem unknown_symmetry_defaults_X
    (entries : List (String × TileInfo)) (name : String) (info : TileInfo)
    (hmem : (name, info) ∈ entries)
    (hwf : contentWellFormed info.content = true)
    (hsym : info.symmetry ∉ (["I", "L", "T", "backslash", "P"] : List String)) :
    (mkTileRecord info).symmetry = Symmetry.X ∧
    mkTileRecord info ∈ (buildTiles entries 0).2 := by
  constructor
  · show parseSymmetry info.symmetry = Symmetry.X
    have h1 : ¬ info.symmetry = "I" := fun h => hsym (by simp [h])
    have h2 : ¬ info.symmetry = "L" := fun h => hsym (by simp [h])
    have h3 : ¬ info.symmetry = "T" := fun h => hsym (by simp [h])
    have h4 : ¬ info.symmetry = "backslash" := fun h => hsym (by simp [h])
    have h5 : ¬ info.symmetry = "P" := fun h => hsym (by simp [h])
    unfold parseSymmetry
    rw [if_neg h1, if_neg h2, if_neg h3, if_neg h4, if_neg h5]
  · exact mkTileRecord_mem_buildTiles entries 0 name info hmem hwf

def c10Info : TileInfo :=
  { symmetry := "diag", weight := none, content := .arr [.arr [.int 0]] }

/-- Witness for C10: the unrecognized tag "diag" compiles to `X`. -/
theorem unknown_symmetry_defaults_X_witness :
    (mkTileRecord c10Info).symmetry = Symmetry.X ∧
    mkTileRecord c10Info ∈ (buildTiles [("d", c10Info)] 0).2 :=
  unknown_symmetry_defaults_X [("d", c10Info)] "d" c10Info (by simp) rfl (by decide)

/-! ## §5 Constraint injection on the wave (modelled from the spec)

The engine behind `set_tile` and `set_pattern` is the vendored fast-wfc
library, which is not among the repository sources; the wave, its
propagation, and injection are therefore modelled from the spec (§3, §4.3).
Both injection forms restrict one cell of the wave — a (tile, orientation)
pair at a grid cell, or a pattern id at a wave coordinate — to a single
catalog element and then propagate. -/

/-- Modelled from the spec (§3 "Wave"): a grid of `m` cells over a catalog
of `k` elements; each cell holds the set of element indices still
possible. -/
def Wave (m k : Nat) : Type :=
  Fin m → Finset (Fin k)

/-- Modelled from the spec (§3, §4.3): the propagation environment — four
axis directions, a neighbor map (`none` past a boundary), and the
immutable directional compatibility table. -/
structure PropEnv (m k : Nat) where
  neighbor : Fin m → Fin 4 → Option (Fin m)
  compat : Fin k → Fin 4 → Fin k → Bool

/-- Modelled from the spec (§4.3 "Propagation"): an element stays possible
at a cell iff toward every existing neighbor it is supported by at least
one element remaining in that neighbor's domain under the direction's
compatibility relation. -/
def supported {m k : Nat} (env : PropEnv m k) (w : Wave m k) (c : Fin m) (e : Fin k) : Bool :=
  (List.finRange 4).all (fun d =>
    match env.neighbor c d with
    | none => true
    | some c2 => decide (∃ e2 ∈ w c2, env.compat e d e2 = true))

/-- One pass of unsupported-element removal over the whole wave. -/
def supportPass {m k : Nat} (env : PropEnv m k) (w : Wave m k) : Wave m k :=
  fun c => (w c).filter (fun e => supported env w c e = true)

/-- Total number of remaining possibilities, the strictly decreasing
measure of propagation (§4.3 "Termination"). -/
def waveMeasure {m k : Nat} (w : Wave m k) : Nat :=
  ∑ c : Fin m, (w c).card

/-- Modelled from the spec (§4.3): drain the propagation frontier — iterate
removal passes until no element changes, which happens within
`waveMeasure w` passes because the measure strictly decreases. -/
def propagate {m k : Nat} (env : PropEnv m k) (w : Wave m k) : Wave m k :=
  (supportPass env)^[waveMeasure w] w

/-- Modelled from the spec (§4.3 "Constraint injection"): force one cell to
one element by removing all other elements from its domain, then
propagate. -/
def inject {m k : Nat} (env : PropEnv m k) (c0 : Fin m) (e0 : Fin k) (w : Wave m k) : Wave m k :=
  propagate env (fun c => if c = c0 then (w c).filter (fun e => e = e0) else w c)

theorem supportPass_subset {m k : Nat} (env : PropEnv m k) (w : Wave m k) (c : Fin m) :
    supportPass env w c ⊆ w c :=
  Finset.filter_subset _ _

theorem iterate_supportPass_subset {m k : Nat} (env : PropEnv m k) :
    ∀ (n : Nat) (w : Wave m k) (c : Fin m), ((supportPass env)^[n] w) c ⊆ w c := by
  intro n
  induction n with
  | zero => intro w c; exact Finset.Subset.refl _
  | succ n ih =>
    intro w c
    rw [Function.iterate_succ_apply]
    exact (ih (supportPass env w) c).trans (supportPass_subset env w c)

theorem supportPass_of_measure_zero {m k : Nat} (env : PropEnv m k) (w : Wave m k)
    (h : waveMeasure w = 0) : supportPass env w = w := by
  funext c
  have hc : (w c).card = 0 := by
    have := Finset.sum_eq_zero_iff.mp h
    exact this c (Finset.mem_univ c)
  have hemp : w c = ∅ := Finset.card_eq_zero.mp hc
  rw [supportPass, hemp]
  rfl

theorem waveMeasure_lt_of_ne {m k : Nat} (env : PropEnv m k) (w : Wave m k)
    (h : supportPass env w ≠ w) : waveMeasure (supportPass env w) < waveMeasure w := by
  have hex : ∃ c, supportPass env w c ≠ w c := Function.ne_iff.mp h
  obtain ⟨c0, hc0⟩ := hex
  apply Finset.sum_lt_sum
  · intro c _
    exact Finset.card_le_card (supportPass_subset env w c)
  · refine ⟨c0, Finset.mem_univ c0, ?_⟩
    exact Finset.card_lt_card (Finset.ssubset_iff_subset_ne.mpr
      ⟨supportPass_subset env w c0, hc0⟩)

theorem supportPass_iterate_fix {m k : Nat} (env : PropEnv m k) :
    ∀ (n : Nat) (w : Wave m k), waveMeasure w ≤ n →
      supportPass env ((supportPass env)^[n] w) = (supportPass env)^[n] w := by
  intro n
  induction n with
  | zero =>
    intro w h
    have h0 : waveMeasure w = 0 := Nat.le_zero.mp h
    simp only [Function.iterate_zero, id]
    exact supportPass_of_measure_zero env w h0
  | succ n ih =>
    intro w h
    by_cases hfix : supportPass env w = w
    · rw [Function.iterate_fixed hfix]
      exact hfix
    · have hlt : waveMeasure (supportPass env w) < waveMeasure w :=
        waveMeasure_lt_of_ne env w hfix
      rw [Function.iterate_succ_apply]
      exact ih (supportPass env w) (by omega)

theorem propagate_fixpoint {m k : Nat} (env : PropEnv m k) (w : Wave m k) :
    supportPass env (propagate env w) = propagate env w :=
  supportPass_iterate_fix env (waveMeasure w) w (Nat.le_refl _)

theorem propagate_of_fixpoint {m k : Nat} (env : PropEnv m k) (x : Wave m k)
    (h : supportPass env x = x) : propagate env x = x :=
  Function.iterate_fixed h _

theorem inject_subset_restriction {m k : Nat} (env : PropEnv m k)
    (c0 : Fin m) (e0 : Fin k) (w : Wave m k) (c : Fin m) :
    inject env c0 e0 w c ⊆ (if c = c0 then (w c).filter (fun e => e = e0) else w c) :=
  iterate_supportPass_subset env _ _ c

/-- C8: injection idempotence.  Injecting the identical constraint (one
catalog element at one cell — a tile with its orientation, or a pattern)
twice at the same location yields the same per-cell domain state as
injecting it once, for every wave, environment, cell and element. -/
theorem inject_idempotent {m k : Nat} (env : PropEnv m k) (c0 : Fin m) (e0 : Fin k)
    (w : Wave m k) :
    inject env c0 e0 (inject env c0 e0 w) = inject env c0 e0 w := by
  have hrestrict : (fun c => if c = c0 then
      (inject env c0 e0 w c).filter (fun e => e = e0) else inject env c0 e0 w c)
      = inject env c0 e0 w := by
    funext c
    by_cases hc : c = c0
    · subst hc
      rw [if_pos rfl]
      apply Finset.filter_true_of_mem
      intro e he
      have hmem := inject_subset_restriction env c e0 w c he
      rw [if_pos rfl] at hmem
      exact (Finset.mem_filter.mp hmem).2
    · rw [if_neg hc]
  show propagate env (fun c => if c = c0 then
      (inject env c0 e0 w c).filter (fun e => e = e0) else inject env c0 e0 w c)
    = inject env c0 e0 w
  rw [hrestrict]
  exact propagate_of_fixpoint env _ (propagate_fixpoint env _)

end FastWFC
